import Mathlib

/-!
Shallow embedding of src/AS2Disposition/AS2Disposition.ts

The repository's header codec (`toNotification`), the disposition parsing loop,
and the `AS2Disposition` constructor / `outgoing` / `incoming` pipelines are
translated here.  JavaScript strings are modelled as `List Char` (wrapped back
into `String` where the source stores a string value); `undefined` is `none`;
a thrown error is modelled with `Option`/`Except`.
-/

namespace AS2

/-- JS whitespace characters relevant to `String.prototype.trim` for the ASCII
header text this codec handles. -/
def isJsSpace (c : Char) : Bool :=
  c = ' ' || c = '\t' || c = '\n' || c = '\r' || c = '\x0b' || c = '\x0c'

/-- JS `str.trim()` on a character list: drop whitespace from both ends. -/
def trimChars (l : List Char) : List Char :=
  ((l.dropWhile isJsSpace).reverse.dropWhile isJsSpace).reverse

/-- JS `str.toLowerCase()` for ASCII text. -/
def jsLower (l : List Char) : List Char := l.map Char.toLower

/-- JS `str.split(sep)` for a single-character separator: always returns a
non-empty list of (possibly empty) segments. -/
def splitChar (sep : Char) : List Char → List (List Char)
  | [] => [[]]
  | c :: rest =>
    if c = sep then [] :: splitChar sep rest
    else
      match splitChar sep rest with
      | [] => [[c]]
      | h :: t => (c :: h) :: t

/-- `chars.charAt(0).toUpperCase() + chars.toLowerCase().substring(1)`,
as used per hyphen segment in `newKey`. -/
def capSegment (chars : List Char) : List Char :=
  match chars with
  | [] => []
  | c :: _ => Char.toUpper c :: (jsLower chars).drop 1

/-- `newKey` from `toNotification`: lower-case the name, split on hyphens,
keep the first segment lower-case and capitalize the rest, then join. -/
def newKey (str : String) : String :=
  let segs := splitChar '-' (jsLower str.data)
  ⟨(segs.enum.map (fun ic => if ic.1 = 0 then jsLower ic.2 else capSegment ic.2)).flatten⟩

/-- A disposition attribute value: a string, or the JS boolean `true` stored
when the modifier has no (or an empty) `=value`. -/
inductive AttrValue where
  | str (s : String)
  | boolTrue
deriving DecidableEq, Repr

/-- The `description` record `{type, text}` built by the disposition parser and
by the outgoing pipeline. -/
structure Description where
  type : String
  text : String
deriving DecidableEq, Repr

/-- The structured result of parsing a `Disposition` header value. -/
structure DispositionField where
  type : String
  value : Option String
  processed : Option Bool
  description : Option Description
  attributes : Option (List (String × AttrValue))
deriving DecidableEq, Repr

/-- `let key = part.slice(0, index).trim().toLowerCase()` where `index` is the
position of the first `=` (or the length when there is none). -/
def modKey (part : List Char) : List Char :=
  jsLower (trimChars (part.takeWhile (fun c => c ≠ '=')))

/-- `let value = part.slice(index + 1).trim()` for the same `index`: the text
after the first `=`, trimmed; empty when there is no `=`. -/
def modValue (part : List Char) : List Char :=
  trimChars ((part.dropWhile (fun c => c ≠ '=')).drop 1)

/-- The body of the modifier loop once `key` and `value` have been extracted
from the segment: the processed/failed branch sets `processed` (and
`description` when the key has a `/` component), any other key is stored into
`attributes` only when not already present, an empty value becoming the
boolean `true`. -/
def processKV (result : DispositionField) (key value : List Char) : DispositionField :=
  if "processed".data.isPrefixOf key || "failed".data.isPrefixOf key then
    match splitChar '/' key with
    | [] => result
    | attrKey :: kt =>
      let result1 := { result with processed := some (decide (attrKey = "processed".data)) }
      match kt with
      | [] => result1
      | attrProp :: _ =>
        { result1 with description := some ⟨⟨jsLower attrProp⟩, ⟨value⟩⟩ }
  else
    let attrs := result.attributes.getD []
    if (attrs.lookup (⟨key⟩ : String)).isSome then result
    else
      let newVal := if value.isEmpty then AttrValue.boolTrue else AttrValue.str ⟨value⟩
      { result with attributes := some (attrs ++ [(⟨key⟩, newVal)]) }

/-- The body of the `for (const part of parts.slice(1))` loop in the
`disposition` case of `toNotification`: extract `key` and `value` around the
first `=` and process them.  (The first branch of `processKV` is never the
empty list: `splitChar` always returns at least one segment, matching the JS
destructuring where `attrKey` always exists.) -/
def processModifier (result : DispositionField) (part : List Char) : DispositionField :=
  processKV result (modKey part) (modValue part)

/-- The `disposition` case of `toNotification`: split the value on `;`, take
`(type, action)` from the first segment split on `/`, then fold the modifier
loop over the remaining segments. -/
def parseDisposition (value : String) : DispositionField :=
  let parts := (splitChar ';' value.data).map trimChars
  let firstSplit := splitChar '/' (parts.headD [])
  let init : DispositionField :=
    { type := ⟨firstSplit.headD []⟩
      value := (firstSplit.get? 1).map (fun l => (⟨l⟩ : String))
      processed := none
      description := none
      attributes := none }
  List.foldl processModifier init parts.tail

/-- The `received-content-mic` case: destructure `value.split(',').map(trim)`
into `[micValue, micalg]`; calling `toLowerCase` on an absent `micalg` throws,
modelled by `none`. -/
def parseReceivedContentMic (value : String) : Option (String × String) :=
  let vals := (splitChar ',' value.data).map trimChars
  match vals.get? 1 with
  | none => none
  | some micalg => some (⟨vals.headD []⟩, ⟨jsLower micalg⟩)

/-- The structured value paired with the outgoing key by `toNotification`,
one constructor per `switch` case. -/
inductive FieldResult where
  | str (s : String)
  | recipient (type : String) (value : String)
  | disposition (d : DispositionField)
  | mic (mic : String) (algorithm : String)
  | bucket (origKey : String) (rawValue : String)
deriving DecidableEq, Repr

/-- `toNotification(key, value)` from the source: dispatch on the lower-cased
header name and return the canonical key with the structured value; `none`
models the thrown TypeError of the MIC case on a missing comma. -/
def toNotification (key value : String) : Option (String × FieldResult) :=
  let parts := (splitChar ';' value.data).map trimChars
  let lkey := jsLower key.data
  if lkey = "reporting-ua".data ∨ lkey = "mdn-gateway".data ∨
      lkey = "original-message-id".data then
    some (newKey key, .str value)
  else if lkey = "original-recipient".data ∨ lkey = "final-recipient".data then
    some (newKey key, .recipient ⟨parts.headD []⟩ ⟨List.intercalate "; ".data parts.tail⟩)
  else if lkey = "disposition".data then
    some (newKey key, .disposition (parseDisposition value))
  else if lkey = "received-content-mic".data then
    match parseReceivedContentMic value with
    | none => none
    | some ma => some (newKey key, .mic ma.1 ma.2)
  else
    some ("headers", .bucket key value)

/-- An AS2MimeNode, restricted to the parts the disposition code reads: the
As2-To header (`getHeader`), the message id, the content type, the content
body, and the child nodes. -/
inductive MimeNode where
  | mk (as2To : Option String) (messageId : String) (contentType : String)
       (content : String) (children : List MimeNode)

/-- `node.getHeader('As2-To')`; `none` models an absent header. -/
def MimeNode.as2To : MimeNode → Option String
  | .mk a _ _ _ _ => a

/-- `node.messageId()` of the root node. -/
def MimeNode.messageId : MimeNode → String
  | .mk _ m _ _ _ => m

/-- The node's content type header value. -/
def MimeNode.contentType : MimeNode → String
  | .mk _ _ ct _ _ => ct

/-- `node.content.toString('utf8')`. -/
def MimeNode.content : MimeNode → String
  | .mk _ _ _ c _ => c

/-- `node.childNodes`. -/
def MimeNode.children : MimeNode → List MimeNode
  | .mk _ _ _ _ cs => cs

mutual

/-- Modelled from the spec: `getReportNode` (imported from Helpers, which is
not in src) travels the mime node tree for content type multipart/report and
yields the first matching node, or nothing when the tree has none. -/
def getReportNode (n : MimeNode) : Option MimeNode :=
  match n with
  | .mk a mid ct c children =>
    if "multipart/report".data.isPrefixOf ct.data then some (.mk a mid ct c children)
    else getReportNodeOfList children

/-- Helper for `getReportNode`: first report node found among a list of
children, in order. -/
def getReportNodeOfList : List MimeNode → Option MimeNode
  | [] => none
  | c :: rest =>
    match getReportNode c with
    | some r => some r
    | none => getReportNodeOfList rest

end

/-- Modelled from the spec: the ERROR constants of the Constants module (not
in src) that the disposition code throws, plus the two error shapes arising
at runtime: a propagated crypto error and a JS TypeError. -/
inductive ASError where
  | dispositionNode
  | finalRecipientMissing
  | contentVerify
  | ctorArgument
  | typeError
  | thrown (msg : String)
deriving DecidableEq, Repr

/-- Modelled from the spec: the EXPLANATION constants of the Constants module
(not in src); a fixed enumeration of outgoing explanation strings. -/
inductive EXPLANATION where
  | SUCCESS
  | FAILED_DECRYPTION
  | FAILED_GENERALLY
  | FAILED_VERIFICATION
deriving DecidableEq, Repr

/-- Modelled from the spec: the text of each explanation constant is not in
src; each is represented by a distinct non-empty placeholder string. -/
def EXPLANATION.text : EXPLANATION → String
  | .SUCCESS => "SUCCESS"
  | .FAILED_DECRYPTION => "FAILED_DECRYPTION"
  | .FAILED_GENERALLY => "FAILED_GENERALLY"
  | .FAILED_VERIFICATION => "FAILED_VERIFICATION"

/-- Modelled from the spec: `parseHeaderString` (from Helpers, not in src)
decodes the message/disposition-notification body by feeding each header line
through the codec transform, here `toNotification`; a transform failure (the
MIC TypeError) propagates as `none`. -/
def parseHeaderBody (body : String) : Option (List (String × FieldResult)) :=
  let lines := ((splitChar '\n' body.data).map trimChars).filter (fun l => !l.isEmpty)
  lines.foldr
    (fun ln acc =>
      match acc with
      | none => none
      | some rs =>
        let name := ln.takeWhile (fun c => c ≠ ':')
        let rest := trimChars ((ln.dropWhile (fun c => c ≠ ':')).drop 1)
        match toNotification ⟨name⟩ ⟨rest⟩ with
        | none => none
        | some kv => some (kv :: rs))
    (some [])

/-- The `disposition` object of the notification built by `outgoing`:
`{processed, type: 'automatic-action', description?}`. -/
structure OutDisposition where
  processed : Bool
  type : String
  description : Option Description
deriving Repr

/-- The notification object built by `outgoing`:
`{finalRecipient, disposition}`. -/
structure OutNotification where
  finalRecipient : String
  disposition : OutDisposition
deriving Repr

/-- The notification payload held by a constructed AS2Disposition: either the
parsed fields of an incoming report or the object built by `outgoing`. -/
inductive NotificationPayload where
  | parsed (fields : List (String × FieldResult))
  | built (n : OutNotification)
deriving Repr

/-- Modelled from the spec: `AS2MimeNode.generateMessageId` is an external
collaborator (process-wide unique id generation), represented by an abstract
constant. -/
def generatedMessageId : String := "<generated>"

/-- The fields of a constructed AS2Disposition instance; every field starts
out `undefined` (`none`) and is only assigned on the branch that sets it. -/
structure DispositionObj where
  messageId : Option String
  explanation : Option String
  notification : Option NotificationPayload
  returned : Option MimeNode

/-- The constructor argument: either an AS2MimeNode, or a plain options
object (explanation, notification, returned).  `explanation` is `none` for
`undefined`; outgoing never passes a boolean `returned`, so `returned` is
directly an optional node. -/
inductive CtorArg where
  | node (n : MimeNode)
  | opts (explanation : Option String) (payload : Option NotificationPayload)
         (returned : Option MimeNode)

/-- The AS2Disposition constructor.  On a mime node: take the root message id,
locate the multipart/report subtree; when absent, every field stays
undefined; when present, read explanation from child 0, decode child 1 with
the header codec, keep child 2 as the returned content (a missing child 0 or
1 is a thrown TypeError).  On plain options: require a truthy explanation
(non-empty string) and a truthy notification object, else throw. -/
def construct (arg : CtorArg) : Except ASError DispositionObj :=
  match arg with
  | .node n =>
    match getReportNode n with
    | none => .ok { messageId := none, explanation := none,
                    notification := none, returned := none }
    | some report =>
      match report.children.get? 0, report.children.get? 1 with
      | some c0, some c1 =>
        match parseHeaderBody c1.content with
        | none => .error .typeError
        | some fields =>
          .ok { messageId := some n.messageId
                explanation := some ⟨trimChars c0.content.data⟩
                notification := some (.parsed fields)
                returned := report.children.get? 2 }
      | _, _ => .error .typeError
  | .opts e payload r =>
    match e, payload with
    | some s, some p =>
      if s = "" then .error .ctorArgument
      else
        .ok { messageId := some generatedMessageId, explanation := some s,
              notification := some p, returned := r }
    | _, _ => .error .ctorArgument

/-- Modelled from the spec: the crypto collaborator boundary (the mime node's
decrypt/verify methods live outside src).  `decrypt` returns the inner node
or throws; `verify` returns the verified inner node, returns undefined when
verification is inconclusive, or throws on malformed input. -/
structure CryptoEnv where
  decrypt : MimeNode → Except String MimeNode
  verify : MimeNode → Except String (Option MimeNode)

/-- `OutgoingDispositionOptions`: the node plus presence flags for the four
option bags (their contents only matter through the crypto environment). -/
structure OutgoingOptions where
  node : Option MimeNode
  returnNode : Bool
  signDisposition : Bool
  signed : Bool
  encrypted : Bool

/-- The mutable locals of `outgoing` between its guards and the report
construction: `rootNode`, `errored`, and the notification fields it may
rewrite (`disposition.processed`, `disposition.description`) plus
`explanation`. -/
structure OutState where
  rootNode : MimeNode
  errored : Bool
  processed : Bool
  description : Option Description
  explanation : EXPLANATION

/-- The `if (typeof options.encrypted !== 'undefined')` block of `outgoing`:
attempt decryption; on a thrown error record the failure and set
FAILED_DECRYPTION, leaving `rootNode` unchanged. -/
def decryptStep (env : CryptoEnv) (encrypted : Bool) (st : OutState) : OutState :=
  if encrypted then
    match env.decrypt st.rootNode with
    | .ok n => { st with rootNode := n }
    | .error msg =>
      { st with
          errored := true
          processed := false
          description := some ⟨"failure", msg⟩
          explanation := .FAILED_DECRYPTION }
  else st

/-- The `if (typeof options.signed !== 'undefined' && !errored)` block of
`outgoing`: attempt verification; a thrown error records FAILED_GENERALLY
(and `rootNode` keeps its prior value, so the undefined-check that follows is
skipped via `!errored`); an undefined result records FAILED_VERIFICATION with
the fixed text. -/
def verifyStep (env : CryptoEnv) (signedOpt : Bool) (st : OutState) : OutState :=
  if signedOpt && !st.errored then
    match env.verify st.rootNode with
    | .error msg =>
      { st with
          errored := true
          processed := false
          description := some ⟨"failure", msg⟩
          explanation := .FAILED_GENERALLY }
    | .ok none =>
      { st with
          errored := true
          processed := false
          description := some ⟨"failure", "Could not verify signature"⟩
          explanation := .FAILED_VERIFICATION }
    | .ok (some n) => { st with rootNode := n }
  else st

/-- The value returned by `outgoing`: the report content of the MDN mime node
(explanation and notification as built, the returned copy), plus whether the
node was signed with the `signDisposition` options.  Per the spec the sign
operation has no failure mode, so signing the MDN cannot throw. -/
structure OutgoingMdn where
  explanation : EXPLANATION
  notification : OutNotification
  returned : Option MimeNode
  signedMdn : Bool

/-- `AS2Disposition.outgoing`: guard on a present node and a present As2-To
header, run the decrypt and verify steps, then build the report through the
constructor (its options check passes because every explanation constant is a
non-empty string and the notification object is truthy). -/
def outgoing (env : CryptoEnv) (options : OutgoingOptions) : Except ASError OutgoingMdn :=
  match options.node with
  | none => .error .dispositionNode
  | some node =>
    match node.as2To with
    | none => .error .finalRecipientMissing
    | some fr =>
      let st0 : OutState :=
        { rootNode := node, errored := false, processed := true,
          description := none, explanation := .SUCCESS }
      let st1 := decryptStep env options.encrypted st0
      let st2 := verifyStep env options.signed st1
      let notification : OutNotification :=
        { finalRecipient := fr
          disposition :=
            { processed := st2.processed, type := "automatic-action",
              description := st2.description } }
      match construct (.opts (some st2.explanation.text) (some (.built notification))
          (if options.returnNode then some node else none)) with
      | .error e => .error e
      | .ok obj =>
        .ok { explanation := st2.explanation, notification := notification,
              returned := obj.returned, signedMdn := options.signDisposition }

/-- `AS2Disposition.incoming`: guard on a present node; when verification
options are given, verify (a thrown error propagates) and fail with the
content-verification error when the result is undefined; construct the
disposition from the (possibly unwrapped) node. -/
def incoming (env : CryptoEnv) (node : Option MimeNode) (signedOpt : Bool) :
    Except ASError DispositionObj :=
  match node with
  | none => .error .dispositionNode
  | some n =>
    if signedOpt then
      match env.verify n with
      | .error msg => .error (.thrown msg)
      | .ok none => .error .contentVerify
      | .ok (some vn) => construct (.node vn)
    else construct (.node n)

/-! ## Basic facts about the JS split model -/

theorem splitChar_ne_nil (sep : Char) (l : List Char) : splitChar sep l ≠ [] := by
  induction l with
  | nil => simp [splitChar]
  | cons c rest ih =>
    rw [splitChar]
    by_cases hc : c = sep
    · simp [hc]
    · cases h : splitChar sep rest with
      | nil => simp [hc, h]
      | cons hd tl => simp [hc, h]

theorem splitChar_cons_of_ne (sep c : Char) (l : List Char) (hc : ¬c = sep) :
    ∃ hd tl, splitChar sep l = hd :: tl ∧ splitChar sep (c :: l) = (c :: hd) :: tl := by
  cases h : splitChar sep l with
  | nil => exact absurd h (splitChar_ne_nil sep l)
  | cons hd tl =>
    refine ⟨hd, tl, rfl, ?_⟩
    rw [splitChar, if_neg hc, h]

theorem splitChar_of_not_mem (sep : Char) (l : List Char) (h : sep ∉ l) :
    splitChar sep l = [l] := by
  induction l with
  | nil => simp [splitChar]
  | cons c rest ih =>
    have hc : ¬c = sep := fun e => h (e ▸ List.mem_cons_self c rest)
    have hr : sep ∉ rest := fun hm => h (List.mem_cons_of_mem _ hm)
    rw [splitChar, if_neg hc, ih hr]

theorem splitChar_append_not_mem (sep : Char) (l₁ l₂ : List Char) (h : sep ∉ l₁) :
    ∃ hd tl, splitChar sep l₂ = hd :: tl ∧
      splitChar sep (l₁ ++ l₂) = (l₁ ++ hd) :: tl := by
  induction l₁ with
  | nil =>
    cases hs : splitChar sep l₂ with
    | nil => exact absurd hs (splitChar_ne_nil sep l₂)
    | cons hd tl => exact ⟨hd, tl, rfl, by simp [hs]⟩
  | cons c cs ih =>
    have hc : ¬c = sep := fun e => h (e ▸ List.mem_cons_self c cs)
    obtain ⟨hd, tl, h2, h3⟩ := ih (fun hm => h (List.mem_cons_of_mem _ hm))
    refine ⟨hd, tl, h2, ?_⟩
    rw [List.cons_append, splitChar, if_neg hc, h3]
    rfl

theorem splitChar_mem_exists (sep : Char) (l : List Char) (h : sep ∈ l) :
    ∃ p0 p1 t, splitChar sep l = p0 :: p1 :: t := by
  induction l with
  | nil => cases h
  | cons c rest ih =>
    by_cases hc : c = sep
    · subst hc
      cases hs : splitChar c rest with
      | nil => exact absurd hs (splitChar_ne_nil c rest)
      | cons hd tl =>
        refine ⟨[], hd, tl, ?_⟩
        rw [splitChar, if_pos rfl, hs]
    · have hm : sep ∈ rest := by
        rcases List.mem_cons.mp h with h1 | h2
        · exact absurd h1.symm hc
        · exact h2
      obtain ⟨p0, p1, t, hs⟩ := ih hm
      refine ⟨c :: p0, p1, t, ?_⟩
      rw [splitChar, if_neg hc, hs]

/-! ## Facts about the modifier loop -/

theorem dropWhile_eq_nil_of_all {p : Char → Bool} {l : List Char}
    (h : ∀ c ∈ l, p c = true) : l.dropWhile p = [] := by
  induction l with
  | nil => rfl
  | cons c rest ih =>
    rw [List.dropWhile_cons_of_pos (h c (List.mem_cons_self c rest))]
    exact ih (fun x hx => h x (List.mem_cons_of_mem _ hx))

theorem modValue_of_no_eq {part : List Char} (h : '=' ∉ part) : modValue part = [] := by
  have hd : part.dropWhile (fun c => c ≠ '=') = [] :=
    dropWhile_eq_nil_of_all (fun c hc => decide_eq_true (fun e => h (e ▸ hc)))
  rw [modValue, hd]
  rfl

theorem takeWhile_takeWhile_self (p : Char → Bool) (l : List Char) :
    (l.takeWhile p).takeWhile p = l.takeWhile p := by
  induction l with
  | nil => rfl
  | cons c rest ih =>
    by_cases hc : p c = true
    · rw [List.takeWhile_cons_of_pos hc, List.takeWhile_cons_of_pos hc, ih]
    · rw [List.takeWhile_cons_of_neg (by simpa using hc)]
      rfl

theorem all_takeWhile_pred {p : Char → Bool} {l : List Char} :
    ∀ c ∈ l.takeWhile p, p c = true := by
  induction l with
  | nil => intro c hc; cases hc
  | cons a rest ih =>
    intro c hc
    by_cases ha : p a = true
    · rw [List.takeWhile_cons_of_pos ha] at hc
      rcases List.mem_cons.mp hc with h1 | h2
      · exact h1 ▸ ha
      · exact ih c h2
    · rw [List.takeWhile_cons_of_neg (by simpa using ha)] at hc
      cases hc

theorem modValue_takeWhile (part : List Char) :
    modValue (part.takeWhile (fun c => c ≠ '=')) = [] := by
  have hd : (part.takeWhile (fun c => c ≠ '=')).dropWhile (fun c => c ≠ '=') = [] :=
    dropWhile_eq_nil_of_all (fun c hc => all_takeWhile_pred c hc)
  rw [modValue, hd]
  rfl

theorem modKey_takeWhile (part : List Char) :
    modKey (part.takeWhile (fun c => c ≠ '=')) = modKey part := by
  rw [modKey, modKey, takeWhile_takeWhile_self]

theorem processKV_type (st : DispositionField) (k v : List Char) :
    (processKV st k v).type = st.type := by
  simp only [processKV]
  repeat' split
  all_goals rfl

theorem processKV_value (st : DispositionField) (k v : List Char) :
    (processKV st k v).value = st.value := by
  simp only [processKV]
  repeat' split
  all_goals rfl

theorem foldl_processModifier_type (init : DispositionField) (parts : List (List Char)) :
    (List.foldl processModifier init parts).type = init.type ∧
    (List.foldl processModifier init parts).value = init.value := by
  induction parts generalizing init with
  | nil => exact ⟨rfl, rfl⟩
  | cons p ps ih =>
    rw [List.foldl_cons]
    obtain ⟨h1, h2⟩ := ih (processModifier init p)
    exact ⟨h1.trans (processKV_type init (modKey p) (modValue p)),
           h2.trans (processKV_value init (modKey p) (modValue p))⟩

theorem processKV_special_nil (st : DispositionField) (k v attrKey : List Char)
    (hb : ("processed".data.isPrefixOf k || "failed".data.isPrefixOf k) = true)
    (hs : splitChar '/' k = [attrKey]) :
    ((processKV st k v).processed = some (decide (attrKey = "processed".data))) ∧
    (processKV st k v).description = st.description ∧
    (processKV st k v).attributes = st.attributes := by
  refine ⟨?_, ?_, ?_⟩ <;> (rw [processKV, if_pos hb]; simp only [hs]; try rfl)

theorem processKV_special_cons (st : DispositionField) (k v attrKey attrProp : List Char)
    (kt : List (List Char))
    (hb : ("processed".data.isPrefixOf k || "failed".data.isPrefixOf k) = true)
    (hs : splitChar '/' k = attrKey :: attrProp :: kt) :
    ((processKV st k v).processed = some (decide (attrKey = "processed".data))) ∧
    (processKV st k v).description = some ⟨⟨jsLower attrProp⟩, ⟨v⟩⟩ ∧
    (processKV st k v).attributes = st.attributes := by
  refine ⟨?_, ?_, ?_⟩ <;> (rw [processKV, if_pos hb]; simp only [hs]; try rfl)

theorem processKV_attributes_dup (st : DispositionField) (k v : List Char)
    (h : ((st.attributes.getD []).lookup (⟨k⟩ : String)).isSome = true) :
    (processKV st k v).attributes = st.attributes := by
  rw [processKV]
  split
  · split
    · rfl
    · split
      · rfl
      · rfl
  · rw [if_pos h]

theorem processKV_attributes_new (st : DispositionField) (k v : List Char)
    (hb : ("processed".data.isPrefixOf k || "failed".data.isPrefixOf k) = false)
    (hl : (st.attributes.getD []).lookup (⟨k⟩ : String) = none) :
    (processKV st k v).attributes =
      some ((st.attributes.getD []) ++
        [(⟨k⟩, if v.isEmpty then AttrValue.boolTrue else AttrValue.str ⟨v⟩)]) := by
  rw [processKV, if_neg (by simp [hb]), if_neg (by simp [hl])]

/-! ## Claims about the header codec -/

theorem toNotification_mic (v : String) :
    toNotification "Received-Content-MIC" v =
      (parseReceivedContentMic v).map
        (fun ma => ("receivedContentMic", FieldResult.mic ma.1 ma.2)) := by
  simp only [toNotification]
  rw [if_neg (by decide), if_neg (by decide), if_neg (by decide), if_pos (by decide)]
  cases h : parseReceivedContentMic v with
  | none => rfl
  | some ma => rfl

/-- Claim C7: decoding a Received-Content-MIC value containing a comma splits
it on commas and trims the parts, yielding the first part as the mic and the
lower-cased second part as the algorithm; decoding a value with no comma
throws (yields none) instead of producing a record. -/
theorem C7_received_content_mic :
    (∀ v : String, ',' ∈ v.data →
      ∃ p0 p1 t, splitChar ',' v.data = p0 :: p1 :: t ∧
        toNotification "Received-Content-MIC" v =
          some ("receivedContentMic",
            FieldResult.mic ⟨trimChars p0⟩ ⟨jsLower (trimChars p1)⟩)) ∧
    (∀ v : String, ',' ∉ v.data →
      toNotification "Received-Content-MIC" v = none) := by
  constructor
  · intro v hv
    obtain ⟨p0, p1, t, hs⟩ := splitChar_mem_exists ',' v.data hv
    refine ⟨p0, p1, t, hs, ?_⟩
    rw [toNotification_mic]
    simp only [parseReceivedContentMic, hs]
    rfl
  · intro v hv
    rw [toNotification_mic]
    simp only [parseReceivedContentMic, splitChar_of_not_mem ',' v.data hv]
    rfl

theorem C7_witness :
    (∃ p0 p1 t, splitChar ',' ("abcdef0123==, sha1" : String).data = p0 :: p1 :: t ∧
      toNotification "Received-Content-MIC" "abcdef0123==, sha1" =
        some ("receivedContentMic",
          FieldResult.mic ⟨trimChars p0⟩ ⟨jsLower (trimChars p1)⟩)) ∧
    toNotification "Received-Content-MIC" "abcdef0123==" = none :=
  ⟨C7_received_content_mic.1 "abcdef0123==, sha1" (by decide),
   C7_received_content_mic.2 "abcdef0123==" (by decide)⟩

/-- Claim C4: decoding a Disposition value takes (type, value) from the first
semicolon segment split on a slash; for each subsequent segment, when its key
is processed or starts with failed, `processed` is set to whether the key
equals processed, and when the key carries a slash suffix the description is
set to the lower-cased suffix and the segment value; the documented example
decodes as stated. -/
theorem C4_disposition_decode :
    (∀ v : String,
      (parseDisposition v).type =
        ⟨(splitChar '/' (((splitChar ';' v.data).map trimChars).headD [])).headD []⟩ ∧
      (parseDisposition v).value =
        ((splitChar '/' (((splitChar ';' v.data).map trimChars).headD [])).get? 1).map
          (fun l => (⟨l⟩ : String))) ∧
    (∀ (st : DispositionField) (part : List Char),
      (modKey part = "processed".data ∨ "failed".data <+: modKey part) →
      ((processModifier st part).processed =
          some (decide (modKey part = "processed".data)) ∧
        ∀ p, (splitChar '/' (modKey part)).get? 1 = some p →
          (processModifier st part).description =
            some ⟨⟨jsLower p⟩, ⟨modValue part⟩⟩)) ∧
    toNotification "Disposition" "automatic-action/MDN-sent-automatically; processed" =
      some ("disposition", FieldResult.disposition
        { type := "automatic-action", value := some "MDN-sent-automatically",
          processed := some true, description := none, attributes := none }) := by
  refine ⟨?_, ?_, by decide⟩
  · intro v
    simp only [parseDisposition]
    exact ⟨(foldl_processModifier_type _ _).1, (foldl_processModifier_type _ _).2⟩
  · intro st part h
    rcases h with h | ⟨t', ht⟩
    · have hb : ("processed".data.isPrefixOf (modKey part) ||
          "failed".data.isPrefixOf (modKey part)) = true := by rw [h]; decide
      have hs : splitChar '/' (modKey part) = ["processed".data] := by rw [h]; decide
      obtain ⟨h1, h2, h3⟩ :=
        processKV_special_nil st (modKey part) (modValue part) "processed".data hb hs
      constructor
      · rw [h]
        exact h1
      · intro p hp
        have hnone : (splitChar '/' "processed".data).get? 1 = none := by decide
        rw [h, hnone] at hp
        cases hp
    · have hb : ("processed".data.isPrefixOf (modKey part) ||
          "failed".data.isPrefixOf (modKey part)) = true := by
        rw [← ht]
        have hf : "failed".data.isPrefixOf ("failed".data ++ t') = true :=
          List.isPrefixOf_iff_prefix.mpr (List.prefix_append _ _)
        rw [hf, Bool.or_true]
      obtain ⟨hd, tl, hsp2, hsp⟩ :=
        splitChar_append_not_mem '/' "failed".data t' (by decide)
      rw [ht] at hsp
      have hne1 : ¬("failed".data ++ hd = "processed".data) := by
        intro e
        injection e with e1 e2
        exact absurd e1 (by decide)
      have hne2 : ¬(modKey part = "processed".data) := by
        rw [← ht]
        intro e
        injection e with e1 e2
        exact absurd e1 (by decide)
      cases tl with
      | nil =>
        obtain ⟨h1, h2, h3⟩ :=
          processKV_special_nil st (modKey part) (modValue part) ("failed".data ++ hd) hb hsp
        constructor
        · rw [decide_eq_false hne1] at h1
          rw [decide_eq_false hne2]
          exact h1
        · intro p hp
          rw [hsp] at hp
          cases hp
      | cons p2 rest =>
        obtain ⟨h1, h2, h3⟩ :=
          processKV_special_cons st (modKey part) (modValue part)
            ("failed".data ++ hd) p2 rest hb hsp
        constructor
        · rw [decide_eq_false hne1] at h1
          rw [decide_eq_false hne2]
          exact h1
        · intro p hp
          rw [hsp] at hp
          have hpp : p2 = p := by
            have : (( ("failed".data ++ hd) :: p2 :: rest).get? 1) = some p2 := rfl
            rw [this] at hp
            exact Option.some.inj hp
          rw [← hpp]
          exact h2

theorem C4_witness :
    ((processModifier
        { type := "automatic-action", value := some "MDN-sent-automatically",
          processed := none, description := none, attributes := none }
        "failed/failure=Conversion failed".data).processed =
      some (decide (modKey "failed/failure=Conversion failed".data = "processed".data))) ∧
    (processModifier
        { type := "automatic-action", value := some "MDN-sent-automatically",
          processed := none, description := none, attributes := none }
        "failed/failure=Conversion failed".data).description =
      some ⟨⟨jsLower "failure".data⟩,
        ⟨modValue "failed/failure=Conversion failed".data⟩⟩ := by
  have h := C4_disposition_decode.2.1
    { type := "automatic-action", value := some "MDN-sent-automatically",
      processed := none, description := none, attributes := none }
    "failed/failure=Conversion failed".data
    (Or.inr (by decide))
  exact ⟨h.1, h.2 "failure".data (by decide)⟩

/-- Claim C8: among the disposition modifier segments only the first
occurrence of an attribute name is stored (a segment whose key is already
present leaves the attributes untouched), and a modifier with no = is
recorded under its lower-cased key as the boolean true. -/
theorem C8_duplicate_attributes :
    (∀ (st : DispositionField) (part : List Char),
      ((st.attributes.getD []).lookup (⟨modKey part⟩ : String)).isSome = true →
      (processModifier st part).attributes = st.attributes) ∧
    (∀ (st : DispositionField) (part : List Char),
      '=' ∉ part →
      ("processed".data.isPrefixOf (modKey part) ||
        "failed".data.isPrefixOf (modKey part)) = false →
      (st.attributes.getD []).lookup (⟨modKey part⟩ : String) = none →
      (processModifier st part).attributes =
        some ((st.attributes.getD []) ++ [(⟨modKey part⟩, AttrValue.boolTrue)])) := by
  constructor
  · intro st part h
    exact processKV_attributes_dup st (modKey part) (modValue part) h
  · intro st part hne hb hl
    have hv : modValue part = [] := modValue_of_no_eq hne
    have hemp : (if (modValue part).isEmpty then AttrValue.boolTrue
        else AttrValue.str ⟨modValue part⟩) = AttrValue.boolTrue := by
      rw [hv]; decide
    have h2 := processKV_attributes_new st (modKey part) (modValue part) hb hl
    rw [hemp] at h2
    exact h2

theorem C8_witness :
    (processModifier
        { type := "automatic-action", value := some "processed",
          processed := none, description := none,
          attributes := some [("extension", AttrValue.str "first")] }
        "Extension=second".data).attributes =
      some [("extension", AttrValue.str "first")] ∧
    (processModifier
        { type := "automatic-action", value := some "processed",
          processed := none, description := none, attributes := none }
        "sealed".data).attributes =
      some [("sealed", AttrValue.boolTrue)] :=
  ⟨C8_duplicate_attributes.1 _ _ (by decide),
   C8_duplicate_attributes.2 _ _ (by decide) (by decide) (by decide)⟩

/-- Claim C10: a modifier segment of the form name= whose value after the
equals sign trims to nothing behaves exactly like the segment with everything
from the = removed, and is recorded as the boolean true, never as the empty
string. -/
theorem C10_empty_assignment :
    ∀ (st : DispositionField) (part : List Char),
      '=' ∈ part → modValue part = [] →
      (processModifier st part =
        processModifier st (part.takeWhile (fun c => c ≠ '='))) ∧
      (("processed".data.isPrefixOf (modKey part) ||
          "failed".data.isPrefixOf (modKey part)) = false →
        (st.attributes.getD []).lookup (⟨modKey part⟩ : String) = none →
        (processModifier st part).attributes =
          some ((st.attributes.getD []) ++ [(⟨modKey part⟩, AttrValue.boolTrue)])) := by
  intro st part hmem hv
  constructor
  · show processKV st (modKey part) (modValue part) =
      processKV st (modKey (part.takeWhile (fun c => c ≠ '=')))
        (modValue (part.takeWhile (fun c => c ≠ '=')))
    rw [modKey_takeWhile, modValue_takeWhile, hv]
  · intro hb hl
    have hemp : (if (modValue part).isEmpty then AttrValue.boolTrue
        else AttrValue.str ⟨modValue part⟩) = AttrValue.boolTrue := by
      rw [hv]; decide
    have h2 := processKV_attributes_new st (modKey part) (modValue part) hb hl
    rw [hemp] at h2
    exact h2

theorem C10_witness :
    (processModifier
      { type := "automatic-action", value := none, processed := none,
        description := none, attributes := none } "signed-receipt=  ".data =
     processModifier
      { type := "automatic-action", value := none, processed := none,
        description := none, attributes := none }
      ("signed-receipt=  ".data.takeWhile (fun c => c ≠ '='))) ∧
    (processModifier
      { type := "automatic-action", value := none, processed := none,
        description := none, attributes := none } "signed-receipt=  ".data).attributes =
      some [("signed-receipt", AttrValue.boolTrue)] := by
  have h := C10_empty_assignment
    { type := "automatic-action", value := none, processed := none,
      description := none, attributes := none } "signed-receipt=  ".data
    (by decide) (by decide)
  exact ⟨h.1, h.2 (by decide) (by decide)⟩

/-- Claim C5 counterexample: the unrecognized-header bucket is keyed by the
original field name unchanged, so for X-Custom-Header the stored key is not
the camel-cased canonical key xCustomHeader the claim requires. -/
theorem C5_counterexample :
    toNotification "X-Custom-Header" "v" =
      some ("headers", FieldResult.bucket "X-Custom-Header" "v") ∧
    newKey "X-Custom-Header" = "xCustomHeader" ∧
    toNotification "X-Custom-Header" "v" ≠
      some ("headers", FieldResult.bucket (newKey "X-Custom-Header") "v") := by
  exact ⟨by decide, by decide, by decide⟩

/-- Claim C5 amended: for every header field name not among the recognized
MDN fields, decoding stores the raw value into the headers catch-all bucket
keyed by the ORIGINAL field name unchanged (the camel-casing is applied only
to the outer keys of recognized fields). -/
theorem C5_amended (key value : String)
    (h1 : ¬(jsLower key.data = "reporting-ua".data ∨
        jsLower key.data = "mdn-gateway".data ∨
        jsLower key.data = "original-message-id".data))
    (h2 : ¬(jsLower key.data = "original-recipient".data ∨
        jsLower key.data = "final-recipient".data))
    (h3 : ¬jsLower key.data = "disposition".data)
    (h4 : ¬jsLower key.data = "received-content-mic".data) :
    toNotification key value = some ("headers", FieldResult.bucket key value) := by
  simp only [toNotification]
  rw [if_neg h1, if_neg h2, if_neg h3, if_neg h4]

theorem C5_amended_witness :
    toNotification "X-Custom-Header" "v" =
      some ("headers", FieldResult.bucket "X-Custom-Header" "v") :=
  C5_amended "X-Custom-Header" "v" (by decide) (by decide) (by decide) (by decide)

/-! ## Claims about the outgoing / incoming pipelines and the constructor -/

theorem EXPLANATION.text_ne_empty (e : EXPLANATION) : ¬EXPLANATION.text e = "" := by
  cases e <;> decide

theorem construct_opts_ok (s : String) (hs : ¬s = "") (p : NotificationPayload)
    (r : Option MimeNode) :
    construct (.opts (some s) (some p) r) =
      .ok { messageId := some generatedMessageId, explanation := some s,
            notification := some p, returned := r } := by
  simp only [construct]
  rw [if_neg hs]

theorem outgoing_ok (env : CryptoEnv) (options : OutgoingOptions) (node : MimeNode)
    (fr : String) (hn : options.node = some node) (hfr : node.as2To = some fr) :
    outgoing env options = .ok
      { explanation := (verifyStep env options.signed (decryptStep env options.encrypted
          { rootNode := node, errored := false, processed := true,
            description := none, explanation := .SUCCESS })).explanation
        notification :=
          { finalRecipient := fr
            disposition :=
              { processed := (verifyStep env options.signed (decryptStep env
                  options.encrypted
                  { rootNode := node, errored := false, processed := true,
                    description := none, explanation := .SUCCESS })).processed
                type := "automatic-action"
                description := (verifyStep env options.signed (decryptStep env
                  options.encrypted
                  { rootNode := node, errored := false, processed := true,
                    description := none, explanation := .SUCCESS })).description } }
        returned := if options.returnNode then some node else none
        signedMdn := options.signDisposition } := by
  simp only [outgoing, hn, hfr]
  rw [construct_opts_ok _ (EXPLANATION.text_ne_empty _) _ _]

theorem decryptStep_not_errored (env : CryptoEnv) (enc : Bool) (st : OutState)
    (h : (decryptStep env enc st).errored = false) :
    (decryptStep env enc st).processed = st.processed ∧
    (decryptStep env enc st).description = st.description ∧
    (decryptStep env enc st).explanation = st.explanation := by
  cases enc with
  | false => exact ⟨rfl, rfl, rfl⟩
  | true =>
    cases hd : env.decrypt st.rootNode with
    | ok n => simp [decryptStep, hd]
    | error m => simp [decryptStep, hd] at h

/-- Claim C1: when the node and its recipient header are present and the
decrypt step throws, outgoing does not throw: verification is skipped even
when verification options are present, and the MDN records processed false,
a failure description carrying the decrypt error message, and the
FAILED_DECRYPTION explanation. -/
theorem C1_decrypt_failure (env : CryptoEnv) (options : OutgoingOptions)
    (node : MimeNode) (fr msg : String)
    (hn : options.node = some node) (hfr : node.as2To = some fr)
    (he : options.encrypted = true) (hd : env.decrypt node = .error msg) :
    outgoing env options = .ok
      { explanation := .FAILED_DECRYPTION
        notification :=
          { finalRecipient := fr
            disposition :=
              { processed := false, type := "automatic-action",
                description := some ⟨"failure", msg⟩ } }
        returned := if options.returnNode then some node else none
        signedMdn := options.signDisposition } := by
  rw [outgoing_ok env options node fr hn hfr]
  have hst1 : decryptStep env options.encrypted
      { rootNode := node, errored := false, processed := true,
        description := none, explanation := .SUCCESS } =
      { rootNode := node, errored := true, processed := false,
        description := some ⟨"failure", msg⟩, explanation := .FAILED_DECRYPTION } := by
    rw [he]
    simp [decryptStep, hd]
  rw [hst1]
  have hst2 : verifyStep env options.signed
      { rootNode := node, errored := true, processed := false,
        description := some ⟨"failure", msg⟩, explanation := .FAILED_DECRYPTION } =
      { rootNode := node, errored := true, processed := false,
        description := some ⟨"failure", msg⟩, explanation := .FAILED_DECRYPTION } := by
    simp [verifyStep]
  rw [hst2]

theorem C1_witness :
    outgoing
      ⟨fun _ => .error "decryption key mismatch", fun n => .ok (some n)⟩
      { node := some (.mk (some "PARTNER") "mid" "application/pkcs7-mime" "payload" [])
        returnNode := false, signDisposition := false, signed := true,
        encrypted := true } =
      .ok { explanation := .FAILED_DECRYPTION
            notification :=
              { finalRecipient := "PARTNER"
                disposition :=
                  { processed := false, type := "automatic-action",
                    description := some ⟨"failure", "decryption key mismatch"⟩ } }
            returned := none
            signedMdn := false } :=
  C1_decrypt_failure
    ⟨fun _ => .error "decryption key mismatch", fun n => .ok (some n)⟩ _
    (.mk (some "PARTNER") "mid" "application/pkcs7-mime" "payload" [])
    "PARTNER" "decryption key mismatch" rfl rfl rfl rfl

/-- Claim C2: with verification options and no prior decrypt error, a thrown
verify failure is recorded with FAILED_GENERALLY, and a verify that returns
undefined without throwing is recorded with FAILED_VERIFICATION and the text
Could not verify signature; both record processed false and a failure
description. -/
theorem C2_verify_failure (env : CryptoEnv) (options : OutgoingOptions)
    (node : MimeNode) (fr : String)
    (hn : options.node = some node) (hfr : node.as2To = some fr)
    (hs : options.signed = true)
    (hne : (decryptStep env options.encrypted
        { rootNode := node, errored := false, processed := true,
          description := none, explanation := .SUCCESS }).errored = false) :
    (∀ msg, env.verify (decryptStep env options.encrypted
        { rootNode := node, errored := false, processed := true,
          description := none, explanation := .SUCCESS }).rootNode = .error msg →
      outgoing env options = .ok
        { explanation := .FAILED_GENERALLY
          notification :=
            { finalRecipient := fr
              disposition :=
                { processed := false, type := "automatic-action",
                  description := some ⟨"failure", msg⟩ } }
          returned := if options.returnNode then some node else none
          signedMdn := options.signDisposition }) ∧
    (env.verify (decryptStep env options.encrypted
        { rootNode := node, errored := false, processed := true,
          description := none, explanation := .SUCCESS }).rootNode = .ok none →
      outgoing env options = .ok
        { explanation := .FAILED_VERIFICATION
          notification :=
            { finalRecipient := fr
              disposition :=
                { processed := false, type := "automatic-action",
                  description := some ⟨"failure", "Could not verify signature"⟩ } }
          returned := if options.returnNode then some node else none
          signedMdn := options.signDisposition }) := by
  constructor
  · intro msg hv
    rw [outgoing_ok env options node fr hn hfr]
    have hst2 : verifyStep env options.signed (decryptStep env options.encrypted
        { rootNode := node, errored := false, processed := true,
          description := none, explanation := .SUCCESS }) =
        { rootNode := (decryptStep env options.encrypted
            { rootNode := node, errored := false, processed := true,
              description := none, explanation := .SUCCESS }).rootNode
          errored := true
          processed := false
          description := some ⟨"failure", msg⟩
          explanation := .FAILED_GENERALLY } := by
      rw [verifyStep, hs, hne, hv]
      rw [if_pos (by decide)]
    rw [hst2]
  · intro hv
    rw [outgoing_ok env options node fr hn hfr]
    have hst2 : verifyStep env options.signed (decryptStep env options.encrypted
        { rootNode := node, errored := false, processed := true,
          description := none, explanation := .SUCCESS }) =
        { rootNode := (decryptStep env options.encrypted
            { rootNode := node, errored := false, processed := true,
              description := none, explanation := .SUCCESS }).rootNode
          errored := true
          processed := false
          description := some ⟨"failure", "Could not verify signature"⟩
          explanation := .FAILED_VERIFICATION } := by
      rw [verifyStep, hs, hne, hv]
      rw [if_pos (by decide)]
    rw [hst2]

theorem C2_witness :
    outgoing
      ⟨fun n => .ok n, fun _ => .error "malformed signature"⟩
      { node := some (.mk (some "PARTNER") "mid" "multipart/signed" "payload" [])
        returnNode := false, signDisposition := false, signed := true,
        encrypted := false } =
      .ok { explanation := .FAILED_GENERALLY
            notification :=
              { finalRecipient := "PARTNER"
                disposition :=
                  { processed := false, type := "automatic-action",
                    description := some ⟨"failure", "malformed signature"⟩ } }
            returned := none
            signedMdn := false } ∧
    outgoing
      ⟨fun n => .ok n, fun _ => .ok none⟩
      { node := some (.mk (some "PARTNER") "mid" "multipart/signed" "payload" [])
        returnNode := false, signDisposition := false, signed := true,
        encrypted := false } =
      .ok { explanation := .FAILED_VERIFICATION
            notification :=
              { finalRecipient := "PARTNER"
                disposition :=
                  { processed := false, type := "automatic-action",
                    description := some ⟨"failure", "Could not verify signature"⟩ } }
            returned := none
            signedMdn := false } :=
  ⟨(C2_verify_failure
      ⟨fun n => .ok n, fun _ => .error "malformed signature"⟩
      { node := some (.mk (some "PARTNER") "mid" "multipart/signed" "payload" [])
        returnNode := false, signDisposition := false, signed := true,
        encrypted := false }
      (.mk (some "PARTNER") "mid" "multipart/signed" "payload" [])
      "PARTNER" rfl rfl rfl rfl).1 "malformed signature" rfl,
   (C2_verify_failure
      ⟨fun n => .ok n, fun _ => .ok none⟩
      { node := some (.mk (some "PARTNER") "mid" "multipart/signed" "payload" [])
        returnNode := false, signDisposition := false, signed := true,
        encrypted := false }
      (.mk (some "PARTNER") "mid" "multipart/signed" "payload" [])
      "PARTNER" rfl rfl rfl rfl).2 rfl⟩

/-- Claim C3: outgoing with an absent node throws the disposition-node error,
and with a node lacking the As2-To header throws the final-recipient-missing
error, in both cases before any decrypt or verify step (the result does not
depend on the crypto environment). -/
theorem C3_guards (env : CryptoEnv) (options : OutgoingOptions) :
    (options.node = none → outgoing env options = .error .dispositionNode) ∧
    (∀ node, options.node = some node → node.as2To = none →
      outgoing env options = .error .finalRecipientMissing) := by
  constructor
  · intro h
    simp only [outgoing, h]
  · intro node h1 h2
    simp only [outgoing, h1, h2]

theorem C3_witness :
    outgoing ⟨fun n => .ok n, fun n => .ok (some n)⟩
      { node := none, returnNode := false, signDisposition := false,
        signed := false, encrypted := false } = .error .dispositionNode ∧
    outgoing ⟨fun n => .ok n, fun n => .ok (some n)⟩
      { node := some (.mk none "mid" "text/plain" "body" []), returnNode := false,
        signDisposition := false, signed := false, encrypted := false } =
      .error .finalRecipientMissing :=
  ⟨(C3_guards _ _).1 rfl,
   (C3_guards _ _).2 (.mk none "mid" "text/plain" "body" []) rfl rfl⟩

/-- Claim C6: incoming with verification options fails with the
content-verification error when verify returns undefined; it never constructs
a report from the unverified content. -/
theorem C6_incoming_unverified (env : CryptoEnv) (n : MimeNode)
    (hv : env.verify n = .ok none) :
    incoming env (some n) true = .error .contentVerify := by
  simp [incoming, hv]

theorem C6_witness :
    incoming ⟨fun n => .ok n, fun _ => .ok none⟩
      (some (.mk none "mid" "multipart/signed" "body" [])) true =
      .error .contentVerify :=
  C6_incoming_unverified ⟨fun n => .ok n, fun _ => .ok none⟩
    (.mk none "mid" "multipart/signed" "body" []) rfl

/-- Claim C9: constructing an AS2Disposition from a mime node whose tree has
no multipart/report subtree does not throw and leaves messageId, explanation,
notification and returned all undefined; with a plain options object the
constructor throws exactly when the explanation is absent or empty or the
notification is absent. -/
theorem C9_constructor_no_report :
    (∀ n : MimeNode, getReportNode n = none →
      construct (.node n) = .ok { messageId := none, explanation := none,
                                  notification := none, returned := none }) ∧
    (∀ (e : Option String) (p : Option NotificationPayload) (r : Option MimeNode),
      construct (.opts e p r) = .error .ctorArgument ↔
        (e = none ∨ e = some "" ∨ p = none)) := by
  constructor
  · intro n h
    simp only [construct, h]
  · intro e p r
    cases e with
    | none => simp [construct]
    | some s =>
      cases p with
      | none => simp [construct]
      | some pl =>
        by_cases hs : s = ""
        · subst hs
          simp [construct]
        · simp [construct, hs]

theorem C9_witness :
    construct (.node (.mk none "mid" "text/plain" "body" [])) =
      .ok { messageId := none, explanation := none, notification := none,
            returned := none } ∧
    construct (.opts none none none) = .error .ctorArgument :=
  ⟨C9_constructor_no_report.1 (.mk none "mid" "text/plain" "body" [])
      (by rw [getReportNode, if_neg (by decide)]; rfl),
   (C9_constructor_no_report.2 none none none).mpr (Or.inl rfl)⟩

end AS2
